import Mathlib

/-!
Verification of the SSE (Server-Sent Events) framing parser and the two
streaming dispatch loops of the Manax Go client library
(package manaxclient).

The development shallowly embeds the Go sources:
  * the frame reader sseReader.ReadEvent (sse.go),
  * the dispatch loops of Client.StreamFacts (facts_stream.go) and
    Client.StreamMatches (matches_stream.go),
  * the non-success-response classifier shared by Client.doJSON and the
    two stream drivers,
  * the precondition checks at the top of both stream drivers.

Byte streams are modelled as lists of characters (the streams the client
consumes are UTF-8 text; every byte position relevant to the parser is
ASCII, so a character-level model is byte-faithful on all inputs used
here).  Fallible operations return Option.
-/

/-- Byte sequences are modelled as lists of characters. -/
abbrev Bytes := List Char

/-- Convenience: the character list of a string literal. -/
def chars (s : String) : Bytes := s.data

/-- Go strings.TrimRight cutset test for the cutset used by ReadEvent,
which is the two characters CR and LF. -/
def isCRLFB (c : Char) : Bool := c = '\r' || c = '\n'

/-- Go unicode.IsSpace restricted to the Latin-1 range, which is exactly
TAB, LF, VT, FF, CR, SPACE, NEL (U+0085) and NBSP (U+00A0).  The inputs
handled by this client are ASCII, so the higher Unicode space ranges of
unicode.IsSpace never arise and are not modelled. -/
def isGoSpace (c : Char) : Bool :=
  c.val = 9 || c.val = 10 || c.val = 11 || c.val = 12 || c.val = 13 ||
  c.val = 32 || c.val = 133 || c.val = 160

/-- Remove the longest suffix of characters satisfying p.  Models the
suffix-removal part of Go strings.TrimRight / strings.TrimSpace. -/
def trimRightIf (p : Char → Bool) : Bytes → Bytes
  | [] => []
  | c :: cs =>
    let r := trimRightIf p cs
    if r.isEmpty && p c then [] else c :: r

/-- Go strings.TrimRight(line, "\r\n") as used by ReadEvent. -/
def trimRightCRLF (s : Bytes) : Bytes := trimRightIf isCRLFB s

/-- Go strings.TrimSpace (Latin-1 fragment, see isGoSpace). -/
def goTrimSpace (s : Bytes) : Bytes :=
  trimRightIf isGoSpace (s.dropWhile isGoSpace)

/-- Strip a single leading space from a field value, as in the Go code
`if len(value) > 0 && value[0] == ' ' { value = value[1:] }`. -/
def stripOneLeadingSpace : Bytes → Bytes
  | ' ' :: rest => rest
  | s => s

/-- Split a line at the first colon, as in the Go code
`idx := strings.IndexByte(line, ':')`: some (before, after) when a colon
occurs, none otherwise. -/
def splitAtColon : Bytes → Option (Bytes × Bytes)
  | [] => none
  | c :: cs =>
    if c = ':' then some ([], cs)
    else
      match splitAtColon cs with
      | some (f, v) => some (c :: f, v)
      | none => none

/-- Field-line split of ReadEvent (sse.go lines 126-137): on a colon,
field is the part before it and the value is the part after it with at
most one leading space stripped; a line with no colon is a field name
with empty value. -/
def fieldValue (line : Bytes) : Bytes × Bytes :=
  match splitAtColon line with
  | some (f, v) => (f, stripOneLeadingSpace v)
  | none => (line, [])

/-- SSEEvent (sse.go): one parsed Server-Sent-Events frame.  Go's
`Data []byte` is a byte sequence; nil and empty are indistinguishable to
every consumer in this client (only len and content are used), so Data
is a plain byte sequence here. -/
structure SSEEvent where
  Event : Bytes
  Data : Bytes
  ID : Bytes
  Retry : Bytes
  Comment : Bytes
deriving DecidableEq, Repr

/-- The zero SSEEvent, the Go `var event SSEEvent`. -/
def SSEEvent.zero : SSEEvent := ⟨[], [], [], [], []⟩

/-- End of ReadEvent (sse.go lines 162-164): the Data field is assigned
from the accumulation buffer only when a data field was seen. -/
def finishEvent (event : SSEEvent) (dataBuf : Bytes) (hasData : Bool) : SSEEvent :=
  if hasData then { event with Data := dataBuf } else event

/-- Loop body of sseReader.ReadEvent (sse.go lines 86-171), operating on
the sequence of complete input lines (bufio ReadString('\n') hands back
one line per call; see completeLines for the end-of-stream treatment).
State: the event under construction, the data buffer, and the hasData /
hasFields / hasLines flags.  Returns the finished event together with
the unconsumed lines, or none for io.EOF.  Branches, in source order:
blank line (end of frame, or skipped before any content), comment line
(sets Comment only while no field and no data were recorded), then the
event / data / id / retry / unknown field cases. -/
def readEventLines :
    List Bytes → SSEEvent → Bytes → Bool → Bool → Bool → Option (SSEEvent × List Bytes)
  | [], _, _, _, _, _ => none
  | raw :: rest, event, dataBuf, hasData, hasFields, hasLines =>
    if trimRightCRLF raw = [] then
      if hasLines then some (finishEvent event dataBuf hasData, rest)
      else readEventLines rest event dataBuf hasData hasFields hasLines
    else if (trimRightCRLF raw).head? = some ':' then
      readEventLines rest
        (if !hasFields && !hasData then
          { event with Comment := goTrimSpace (trimRightCRLF raw).tail }
        else event)
        dataBuf hasData hasFields true
    else if (fieldValue (trimRightCRLF raw)).1 = chars "event" then
      readEventLines rest { event with Event := (fieldValue (trimRightCRLF raw)).2 }
        dataBuf hasData true true
    else if (fieldValue (trimRightCRLF raw)).1 = chars "data" then
      readEventLines rest event
        (if dataBuf.length > 0 then dataBuf ++ '\n' :: (fieldValue (trimRightCRLF raw)).2
         else dataBuf ++ (fieldValue (trimRightCRLF raw)).2)
        true hasFields true
    else if (fieldValue (trimRightCRLF raw)).1 = chars "id" then
      readEventLines rest { event with ID := (fieldValue (trimRightCRLF raw)).2 }
        dataBuf hasData true true
    else if (fieldValue (trimRightCRLF raw)).1 = chars "retry" then
      readEventLines rest { event with Retry := (fieldValue (trimRightCRLF raw)).2 }
        dataBuf hasData true true
    else
      readEventLines rest event dataBuf hasData hasFields true

/-- One call of sseReader.ReadEvent starting from a given sequence of
remaining complete lines, with the zero initial state of sse.go
lines 78-84. -/
def readEventL (lines : List Bytes) : Option (SSEEvent × List Bytes) :=
  readEventLines lines SSEEvent.zero [] false false false

/-- Split a byte stream into the lines handed out by
bufio.Reader.ReadString('\n'): each complete line without its
terminating LF.  A final partial line (bytes after the last LF) is
dropped: ReadString returns it together with io.EOF and ReadEvent
(sse.go lines 88-98) discards the returned text whenever err is
non-nil, so those bytes are never looked at. -/
def completeLinesGo (acc : Bytes) : Bytes → List Bytes
  | [] => []
  | c :: cs =>
    if c = '\n' then acc :: completeLinesGo [] cs
    else completeLinesGo (acc ++ [c]) cs

/-- The complete lines of a byte stream (see completeLinesGo). -/
def completeLines (s : Bytes) : List Bytes := completeLinesGo [] s

/-- sseReader.ReadEvent on a pure byte stream: parse the next frame,
returning it with the unconsumed lines, or none for io.EOF (including
the truncated-stream case, where a partial trailing frame is
discarded). -/
def ReadEvent (s : Bytes) : Option (SSEEvent × List Bytes) :=
  readEventL (completeLines s)

/-- All frames obtained by calling ReadEvent repeatedly until io.EOF.
Fuel-indexed so that the definition is structural; every successful
ReadEvent consumes at least one line, so fuel strictly larger than the
number of lines is never exhausted (readEventLines_rest_lt below). -/
def framesF : Nat → List Bytes → List SSEEvent
  | 0, _ => []
  | fuel + 1, lines =>
    match readEventL lines with
    | none => []
    | some (ev, rest) => ev :: framesF fuel rest

/-- The frame sequence of a line sequence (framesF with enough fuel). -/
def framesL (lines : List Bytes) : List SSEEvent :=
  framesF (lines.length + 1) lines

example : ReadEvent (chars "event: facts\ndata: \x7b\"foo\":1\x7d\n\n")
    = some (⟨chars "facts", chars "\x7b\"foo\":1\x7d", [], [], []⟩, []) := by decide

example : ReadEvent (chars ": ping\n\n") = some (⟨[], [], [], [], chars "ping"⟩, []) := by
  decide

example : ReadEvent (chars "event: facts\ndata: line1\ndata: line2\n\n")
    = some (⟨chars "facts", chars "line1\nline2", [], [], []⟩, []) := by decide

example : ReadEvent (chars "event: facts\ndata: x\n") = none := by decide

/-!
JSON model.  The Go client decodes event payloads and error bodies with
encoding/json.  That library is standard-library code, not part of this
repository; the fragment of its behaviour exercised by the client is
modelled here: a JSON grammar parser (objects, arrays, strings with the
single-character escapes, numbers, booleans, null) and struct decoding
that ignores unknown keys, lets later duplicate keys overwrite earlier
ones, treats null as a no-op, and fails on a type mismatch.
Unsupported corners, none of which are exercised by any theorem below:
\u escapes in strings, case-insensitive key matching, and decoding of
the fields inside FactItem / MatchItem elements (elements are kept as
parsed JSON values, constrained to be objects or null as Unmarshal
requires for a struct target).
-/

/-- JSON values.  Numbers are kept as their literal text. -/
inductive Json where
  | null
  | boolVal (b : Bool)
  | num (lit : Bytes)
  | str (s : Bytes)
  | arr (elems : List Json)
  | obj (members : List (Bytes × Json))
deriving Repr

/-- JSON insignificant whitespace. -/
def isJsonWS (c : Char) : Bool :=
  c = ' ' || c = '\t' || c = '\n' || c = '\r'

/-- Single-character JSON string escapes. -/
def escChar (e : Char) : Option Char :=
  if e = '"' then some '"'
  else if e = '\\' then some '\\'
  else if e = '/' then some '/'
  else if e = 'n' then some '\n'
  else if e = 't' then some '\t'
  else if e = 'r' then some '\r'
  else if e = 'b' then some (Char.ofNat 8)
  else if e = 'f' then some (Char.ofNat 12)
  else none

/-- Parse a JSON string body after its opening quote; returns the
decoded text and the input after the closing quote. -/
def parseStr : Bytes → Option (Bytes × Bytes)
  | [] => none
  | '"' :: rest => some ([], rest)
  | '\\' :: e :: rest =>
    match escChar e with
    | some c => (parseStr rest).map (fun p => (c :: p.1, p.2))
    | none => none
  | c :: rest => (parseStr rest).map (fun p => (c :: p.1, p.2))

/-- Parse the exponent digits of a JSON number after the e/E mark. -/
def parseExpAfterMark (r : Bytes) : Option (Bytes × Bytes) :=
  let sgn : Bytes × Bytes :=
    match r with
    | '+' :: t => (['+'], t)
    | '-' :: t => (['-'], t)
    | _ => ([], r)
  let es := sgn.2.takeWhile Char.isDigit
  if es = [] then none else some (sgn.1 ++ es, sgn.2.dropWhile Char.isDigit)

/-- Parse a JSON number literal; returns its text and the rest. -/
def parseNum (s : Bytes) : Option (Bytes × Bytes) :=
  let neg : Bytes × Bytes :=
    match s with
    | '-' :: r => (['-'], r)
    | _ => ([], s)
  let ds := neg.2.takeWhile Char.isDigit
  let r1 := neg.2.dropWhile Char.isDigit
  if ds = [] then none
  else
    let frac : Option (Bytes × Bytes) :=
      match r1 with
      | '.' :: r =>
        let fs := r.takeWhile Char.isDigit
        if fs = [] then none else some ('.' :: fs, r.dropWhile Char.isDigit)
      | _ => some ([], r1)
    match frac with
    | none => none
    | some (fr, r2) =>
      let ex : Option (Bytes × Bytes) :=
        match r2 with
        | 'e' :: r => (parseExpAfterMark r).map (fun p => ('e' :: p.1, p.2))
        | 'E' :: r => (parseExpAfterMark r).map (fun p => ('E' :: p.1, p.2))
        | _ => some ([], r2)
      match ex with
      | none => none
      | some (ep, r3) => some (neg.1 ++ ds ++ fr ++ ep, r3)

/-- Parse request kind: a single value, the member list of an object
after its opening brace, or the element list of an array after its
opening bracket. -/
inductive PKind where
  | val
  | members
  | elems

/-- Parse result matching PKind. -/
inductive PRes where
  | val (j : Json)
  | members (ms : List (Bytes × Json))
  | elems (es : List Json)

/-- Recursive-descent JSON parser, fuel-indexed so that the definition
is structural and computes by kernel reduction.  Every recursive call
strictly consumes input, so fuel larger than the input length is never
exhausted. -/
def parseF : Nat → PKind → Bytes → Option (PRes × Bytes)
  | 0, _, _ => none
  | fuel + 1, PKind.val, s =>
    match s.dropWhile isJsonWS with
    | '"' :: rest => (parseStr rest).map (fun p => (PRes.val (Json.str p.1), p.2))
    | '{' :: rest =>
      match rest.dropWhile isJsonWS with
      | '}' :: r => some (PRes.val (Json.obj []), r)
      | r =>
        match parseF fuel PKind.members r with
        | some (PRes.members ms, r2) => some (PRes.val (Json.obj ms), r2)
        | _ => none
    | '[' :: rest =>
      match rest.dropWhile isJsonWS with
      | ']' :: r => some (PRes.val (Json.arr []), r)
      | r =>
        match parseF fuel PKind.elems r with
        | some (PRes.elems es, r2) => some (PRes.val (Json.arr es), r2)
        | _ => none
    | 't' :: 'r' :: 'u' :: 'e' :: rest => some (PRes.val (Json.boolVal true), rest)
    | 'f' :: 'a' :: 'l' :: 's' :: 'e' :: rest => some (PRes.val (Json.boolVal false), rest)
    | 'n' :: 'u' :: 'l' :: 'l' :: rest => some (PRes.val Json.null, rest)
    | s2 => (parseNum s2).map (fun p => (PRes.val (Json.num p.1), p.2))
  | fuel + 1, PKind.members, s =>
    match s.dropWhile isJsonWS with
    | '"' :: rest =>
      match parseStr rest with
      | none => none
      | some (k, r1) =>
        match r1.dropWhile isJsonWS with
        | ':' :: r2 =>
          match parseF fuel PKind.val r2 with
          | some (PRes.val v, r3) =>
            match r3.dropWhile isJsonWS with
            | ',' :: r4 =>
              match parseF fuel PKind.members r4 with
              | some (PRes.members ms, r5) => some (PRes.members ((k, v) :: ms), r5)
              | _ => none
            | '}' :: r4 => some (PRes.members [(k, v)], r4)
            | _ => none
          | _ => none
        | _ => none
    | _ => none
  | fuel + 1, PKind.elems, s =>
    match parseF fuel PKind.val s with
    | some (PRes.val v, r1) =>
      match r1.dropWhile isJsonWS with
      | ',' :: r2 =>
        match parseF fuel PKind.elems r2 with
        | some (PRes.elems es, r3) => some (PRes.elems (v :: es), r3)
        | _ => none
      | ']' :: r2 => some (PRes.elems [v], r2)
      | _ => none
    | _ => none

/-- Parse a complete JSON document, requiring only trailing whitespace
after the value (json.Unmarshal rejects trailing garbage). -/
def parseJson (s : Bytes) : Option Json :=
  match parseF (s.length + 1) PKind.val s with
  | some (PRes.val j, rest) => if rest.dropWhile isJsonWS = [] then some j else none
  | _ => none

/-- Decimal digits to a natural number. -/
def digitsToNat (acc : Nat) : Bytes → Nat
  | [] => acc
  | c :: cs => digitsToNat (acc * 10 + (c.toNat - 48)) cs

/-- Decode an integer from a JSON number literal, failing on a
fractional or exponent part, exactly as Unmarshal into int64 does. -/
def parseIntLit : Bytes → Option Int
  | '-' :: ds =>
    if ds ≠ [] ∧ ds.all Char.isDigit then some (-(digitsToNat 0 ds : Int)) else none
  | ds =>
    if ds ≠ [] ∧ ds.all Char.isDigit then some ((digitsToNat 0 ds : Int)) else none

/-- Unmarshal into a struct demands an object or null for each
FactItem / MatchItem element. -/
def jsonIsObjOrNull : Json → Bool
  | Json.obj _ => true
  | Json.null => true
  | _ => false

/-- FactsItemsResponse (types.go): the JSON payload shape of the facts
snapshot endpoint and of every facts SSE event; FactsStreamChunk
(facts_stream.go) is a Go type alias of it.  time.Time fields are
carried as their RFC 3339 JSON text and the FactItem elements are
carried as parsed JSON values (see the JSON model header). -/
structure FactsItemsResponse where
  ProID : Bytes
  CursorUpdatedUTC : Bytes
  CursorID : Int
  Items : List Json

/-- FactsStreamChunk = FactsItemsResponse (facts_stream.go). -/
abbrev FactsStreamChunk := FactsItemsResponse

/-- The Go zero value of FactsItemsResponse. -/
def FactsItemsResponse.zero : FactsItemsResponse := ⟨[], [], 0, []⟩

/-- MatchesUpdatesResponse (types.go): the JSON payload shape of every
matches SSE event; MatchesStreamChunk (matches_stream.go) is a Go type
alias of it.  Direction is a nullable string (a pointer in Go). -/
structure MatchesUpdatesResponse where
  ProID : Bytes
  Direction : Option Bytes
  CursorUpdatedUTC : Bytes
  CursorID : Int
  Items : List Json

/-- MatchesStreamChunk = MatchesUpdatesResponse (matches_stream.go). -/
abbrev MatchesStreamChunk := MatchesUpdatesResponse

/-- The Go zero value of MatchesUpdatesResponse. -/
def MatchesUpdatesResponse.zero : MatchesUpdatesResponse := ⟨[], none, [], 0, []⟩

/-- Apply one JSON object member to a FactsItemsResponse under
construction, following Unmarshal: known keys by their json tags,
unknown keys ignored, null a no-op, type mismatch fails. -/
def setFactsField (c : FactsItemsResponse) (k : Bytes) (v : Json) :
    Option FactsItemsResponse :=
  if k = chars "proId" then
    match v with
    | Json.str s => some { c with ProID := s }
    | Json.null => some c
    | _ => none
  else if k = chars "cursorUpdatedUtc" then
    match v with
    | Json.str s => some { c with CursorUpdatedUTC := s }
    | Json.null => some c
    | _ => none
  else if k = chars "cursorId" then
    match v with
    | Json.num lit => (parseIntLit lit).map (fun n => { c with CursorID := n })
    | Json.null => some c
    | _ => none
  else if k = chars "items" then
    match v with
    | Json.arr xs => if xs.all jsonIsObjOrNull then some { c with Items := xs } else none
    | Json.null => some c
    | _ => none
  else some c

/-- Apply one JSON object member to a MatchesUpdatesResponse under
construction (see setFactsField). -/
def setMatchesField (c : MatchesUpdatesResponse) (k : Bytes) (v : Json) :
    Option MatchesUpdatesResponse :=
  if k = chars "proId" then
    match v with
    | Json.str s => some { c with ProID := s }
    | Json.null => some c
    | _ => none
  else if k = chars "direction" then
    match v with
    | Json.str s => some { c with Direction := some s }
    | Json.null => some { c with Direction := none }
    | _ => none
  else if k = chars "cursorUpdatedUtc" then
    match v with
    | Json.str s => some { c with CursorUpdatedUTC := s }
    | Json.null => some c
    | _ => none
  else if k = chars "cursorId" then
    match v with
    | Json.num lit => (parseIntLit lit).map (fun n => { c with CursorID := n })
    | Json.null => some c
    | _ => none
  else if k = chars "items" then
    match v with
    | Json.arr xs => if xs.all jsonIsObjOrNull then some { c with Items := xs } else none
    | Json.null => some c
    | _ => none
  else some c

/-- Fold the members of a JSON object into a struct value, in order
(later duplicate keys overwrite earlier ones, as in Unmarshal). -/
def foldFields {α : Type} (set : α → Bytes → Json → Option α) :
    α → List (Bytes × Json) → Option α
  | c, [] => some c
  | c, (k, v) :: ms =>
    match set c k v with
    | some c2 => foldFields set c2 ms
    | none => none

/-- The json.Unmarshal(ev.Data, &chunk) call of StreamFacts
(facts_stream.go lines 165-168) with chunk a FactsStreamChunk. -/
def decodeFactsChunk (payload : Bytes) : Option FactsItemsResponse :=
  match parseJson payload with
  | some (Json.obj ms) => foldFields setFactsField FactsItemsResponse.zero ms
  | some Json.null => some FactsItemsResponse.zero
  | _ => none

/-- The json.Unmarshal(ev.Data, &chunk) call of StreamMatches
(matches_stream.go lines 408-411) with chunk a MatchesStreamChunk. -/
def decodeMatchesChunk (payload : Bytes) : Option MatchesUpdatesResponse :=
  match parseJson payload with
  | some (Json.obj ms) => foldFields setMatchesField MatchesUpdatesResponse.zero ms
  | some Json.null => some MatchesUpdatesResponse.zero
  | _ => none

example :
    (decodeFactsChunk (chars "\x7b\"id\":1,\"items\":[]\x7d")).map
      FactsItemsResponse.CursorID = some 0 := by decide

example : decodeFactsChunk (chars "\x7b\"cursorId\":7,\"proId\":\"p_1\",\"items\":[]\x7d")
    = some ⟨chars "p_1", [], 7, []⟩ := rfl

example : decodeMatchesChunk (chars "\x7b\"direction\":\"Offer\"\x7d")
    = some ⟨[], some (chars "Offer"), [], 0, []⟩ := rfl

example : decodeFactsChunk (chars "not json") = none := rfl

/-!
Stream session drivers.  StreamFacts (facts_stream.go) and StreamMatches
(matches_stream.go) share one dispatch loop verbatim up to the expected
event name, the chunk type and the message strings; it is embedded once,
parameterised over those.  The loop is driven by the sequence of
outcomes of the repeated ReadEvent calls; for a pure byte stream that
sequence is the frame list followed by io.EOF, while an underlying
transport failure surfaces as a read error carrying the value the Go
code would observe from ctx.Err() at that moment.
-/

/-- Outcome of one ReadEvent call as seen by the dispatch loop: a frame,
io.EOF, or a non-EOF read error together with the ctx.Err() value
observable at that failure point (none when the context is not
cancelled).  The Go `if ev == nil { continue }` guard is dead code -
ReadEvent never returns a nil event with a nil error - and has no
counterpart here. -/
inductive ReadOutcome where
  | frame (ev : SSEEvent)
  | eofEnd
  | readFailure (msg : Bytes) (ctxErrAtFailure : Option Bytes)

/-- How a dispatch loop returns: nil on EOF; the context error when a
read fails under an active cancellation; the read error wrapped with
context otherwise; the empty-payload protocol error; a JSON decode
error; or the handler's own error, returned verbatim. -/
inductive SessionExit where
  | ok
  | ctxCanceled (c : Bytes)
  | readError (msg : Bytes)
  | emptyPayload
  | decodeError
  | handlerError (e : Bytes)
deriving DecidableEq, Repr

/-- Payload half of the loop body (facts_stream.go lines 159-172,
matches_stream.go lines 404-415): empty data is the fatal protocol
error, then JSON decoding, then the synchronous handler call; a handler
error stops the loop, otherwise the chunk is recorded and the loop
continues with k, the result of the rest of the loop.  The first
component of the result lists the chunks passed to the handler, in
order. -/
def processPayload {α : Type} (decode : Bytes → Option α) (handler : α → Option Bytes)
    (payload : Bytes) (k : List α × SessionExit) : List α × SessionExit :=
  if payload = [] then ([], SessionExit.emptyPayload)
  else
    match decode payload with
    | none => ([], SessionExit.decodeError)
    | some chunk =>
      match handler chunk with
      | some e => ([chunk], SessionExit.handlerError e)
      | none => (chunk :: k.1, k.2)

/-- The dispatch loop shared by StreamFacts (facts_stream.go lines
128-173) and StreamMatches (matches_stream.go lines 380-416), over the
sequence of ReadEvent outcomes.  In source order: EOF returns nil;
on a read error the context error is preferred when active, else the
error is wrapped; comment-only frames are skipped; frames with a
non-empty event name different from the expected one are skipped; all
other frames go to processPayload.  An exhausted outcome list behaves
as EOF (a drained pure stream keeps reporting io.EOF). -/
def dispatchLoop {α : Type} (expected : Bytes) (decode : Bytes → Option α)
    (handler : α → Option Bytes) : List ReadOutcome → List α × SessionExit
  | [] => ([], SessionExit.ok)
  | ReadOutcome.eofEnd :: _ => ([], SessionExit.ok)
  | ReadOutcome.readFailure m c :: _ =>
    ([], match c with
         | some ce => SessionExit.ctxCanceled ce
         | none => SessionExit.readError m)
  | ReadOutcome.frame ev :: rest =>
    if ev.Comment ≠ [] ∧ ev.Event = [] ∧ ev.Data = [] then
      dispatchLoop expected decode handler rest
    else if ev.Event ≠ [] ∧ ev.Event ≠ expected then
      dispatchLoop expected decode handler rest
    else
      processPayload decode handler ev.Data (dispatchLoop expected decode handler rest)

/-- The StreamFacts dispatch loop over a sequence of input lines: the
outcomes are exactly the parsed frames, then io.EOF. -/
def StreamFactsDispatch (handler : FactsStreamChunk → Option Bytes)
    (lines : List Bytes) : List FactsStreamChunk × SessionExit :=
  dispatchLoop (chars "facts") decodeFactsChunk handler
    ((framesL lines).map ReadOutcome.frame)

/-- The StreamMatches dispatch loop over a sequence of input lines. -/
def StreamMatchesDispatch (handler : MatchesStreamChunk → Option Bytes)
    (lines : List Bytes) : List MatchesStreamChunk × SessionExit :=
  dispatchLoop (chars "matches") decodeMatchesChunk handler
    ((framesL lines).map ReadOutcome.frame)

/-- StreamFacts from the point where reader := newSSEReader(resp.Body)
is created, on a pure response-body byte stream. -/
def StreamFactsSession (handler : FactsStreamChunk → Option Bytes)
    (s : Bytes) : List FactsStreamChunk × SessionExit :=
  StreamFactsDispatch handler (completeLines s)

/-- StreamMatches from the point where the SSE reader is created, on a
pure response-body byte stream. -/
def StreamMatchesSession (handler : MatchesStreamChunk → Option Bytes)
    (s : Bytes) : List MatchesStreamChunk × SessionExit :=
  StreamMatchesDispatch handler (completeLines s)

/-!
Error/status classifier and response handling.  The same block of code
appears in Client.doJSON (client.go lines 219-238), StreamFacts
(facts_stream.go lines 102-124) and StreamMatches (matches_stream.go
lines 355-376): try a JSON body with a string "error" field, else the
trimmed body text when the trimmed message is still empty and the body
is non-empty, else the HTTP status line text; always attach the status
code and the body bytes read (the stream drivers read at most 64 KiB of
the body).
-/

/-- APIError (client.go): status code, message, raw body bytes. -/
structure APIError where
  StatusCode : Nat
  Message : Bytes
  Body : Bytes
deriving DecidableEq, Repr

/-- The `json.Unmarshal(data, &payload)` of the classifier, where
payload is struct\x7bError string\x7d: the value of the last "error"
member that is a JSON string, when the body is a JSON object; the zero
value (empty) otherwise.  The Unmarshal error itself is discarded by
the Go code. -/
def extractErrorField (data : Bytes) : Bytes :=
  match parseJson data with
  | some (Json.obj ms) =>
    ms.foldl (fun acc kv =>
      if kv.1 = chars "error" then
        match kv.2 with
        | Json.str s => s
        | _ => acc
      else acc) []
  | _ => []

/-- The non-success-response classifier (doJSON lines 219-237 and the
identical blocks in both stream drivers): message from the JSON
"error" field after trimming, else the trimmed body when non-empty,
else the status text; packaged with the status code and body bytes. -/
def classifyError (statusCode : Nat) (status : Bytes) (data : Bytes) : APIError :=
  let msg0 := goTrimSpace (extractErrorField data)
  let msg1 := if msg0 = [] ∧ data.length > 0 then goTrimSpace data else msg0
  let msg2 := if msg1 = [] then status else msg1
  ⟨statusCode, msg2, data⟩

/-- Result of the response-status check in a stream driver: either a
typed APIError (the dispatch loop is never entered) or the result of
the dispatch loop on the response body. -/
inductive ResponseOutcome (α : Type) where
  | apiErr (e : APIError)
  | streamed (r : List α × SessionExit)

/-- StreamFacts response handling (facts_stream.go lines 102-126): a
status outside [200,299] is classified from at most 64 KiB of the body
and returned as an APIError; otherwise the dispatch loop runs. -/
def StreamFactsResponse (handler : FactsStreamChunk → Option Bytes)
    (statusCode : Nat) (status : Bytes) (body : Bytes) :
    ResponseOutcome FactsStreamChunk :=
  if statusCode < 200 ∨ 300 ≤ statusCode then
    ResponseOutcome.apiErr (classifyError statusCode status (body.take 65536))
  else
    ResponseOutcome.streamed (StreamFactsSession handler body)

/-- StreamMatches response handling (matches_stream.go lines 355-378),
identical to StreamFactsResponse up to the chunk type. -/
def StreamMatchesResponse (handler : MatchesStreamChunk → Option Bytes)
    (statusCode : Nat) (status : Bytes) (body : Bytes) :
    ResponseOutcome MatchesStreamChunk :=
  if statusCode < 200 ∨ 300 ≤ statusCode then
    ResponseOutcome.apiErr (classifyError statusCode status (body.take 65536))
  else
    ResponseOutcome.streamed (StreamMatchesSession handler body)

/-!
Precondition checks.  Both drivers validate their arguments before
building the request or touching the network.  The handler (a Go
function value) and cursor.UpdatedUTC (a time.Time) are represented by
what the checks observe of them: handler == nil, and
cursor.UpdatedUTC.IsZero().
-/

/-- Result of a driver's validation prologue: an immediate error, or
the point where the HTTP request is built and performed. -/
inductive StartResult where
  | precondErr (msg : Bytes)
  | networkCall
deriving DecidableEq, Repr

/-- StreamFacts argument validation (facts_stream.go lines 69-75),
performed before any request is built. -/
def StreamFactsStart (proID : Bytes) (handlerIsNil : Bool) : StartResult :=
  let p := goTrimSpace proID
  if p = [] then StartResult.precondErr (chars "StreamFacts: proID must not be empty")
  else if handlerIsNil then
    StartResult.precondErr (chars "StreamFacts: handler must not be nil")
  else StartResult.networkCall

/-- StreamMatches argument validation (matches_stream.go lines 297-318),
performed before the request is built and sent: trimmed proID
non-empty, handler non-nil, Direction non-empty, cursor.ID
non-negative, cursor.UpdatedUTC non-zero.  The UpdatedUTC check sits
a few lines after the first four, between two query-parameter
assignments, but still strictly before the network call. -/
def StreamMatchesStart (proID : Bytes) (handlerIsNil : Bool) (direction : Bytes)
    (cursorUpdatedIsZero : Bool) (cursorID : Int) : StartResult :=
  let p := goTrimSpace proID
  if p = [] then StartResult.precondErr (chars "StreamMatches: proID must not be empty")
  else if handlerIsNil then
    StartResult.precondErr (chars "StreamMatches: handler must not be nil")
  else if direction = [] then
    StartResult.precondErr (chars "StreamMatches: Direction must not be empty")
  else if cursorID < 0 then
    StartResult.precondErr (chars "StreamMatches: cursor.ID must be >= 0")
  else if cursorUpdatedIsZero then
    StartResult.precondErr (chars "StreamMatches: cursor.UpdatedUTC must not be zero")
  else StartResult.networkCall

example :
    StreamFactsSession (fun _ => none)
      (chars ": ping\n\nevent: facts\ndata: \x7b\"id\":1,\"items\":[]\x7d\n\n")
    = ([⟨[], [], 0, []⟩], SessionExit.ok) := rfl

example :
    StreamFactsSession (fun _ => none) (chars ":\n\n") = ([], SessionExit.emptyPayload) := rfl

example :
    StreamMatchesSession (fun _ => none) (chars "event: facts\ndata: x\n\n")
    = ([], SessionExit.ok) := rfl

/-!
Supporting lemmas.
-/

/-- A successful ReadEvent consumes at least one line. -/
theorem readEventLines_rest_lt (lines : List Bytes) :
    ∀ (ev : SSEEvent) (buf : Bytes) (hd hf hl : Bool) (e : SSEEvent) (r : List Bytes),
      readEventLines lines ev buf hd hf hl = some (e, r) → r.length < lines.length := by
  induction lines with
  | nil =>
    intro ev buf hd hf hl e r h
    exact absurd h (by simp [readEventLines])
  | cons raw rest ih =>
    intro ev buf hd hf hl e r h
    unfold readEventLines at h
    split_ifs at h
    all_goals
      first
      | (injection h with h2
         cases h2
         simp)
      | (exact Nat.lt_succ_of_lt (ih _ _ _ _ _ _ _ h))

/-- framesF does not depend on the fuel once it exceeds the number of
lines. -/
theorem framesF_congr :
    ∀ (f1 : Nat) (lines : List Bytes) (f2 : Nat),
      lines.length < f1 → lines.length < f2 → framesF f1 lines = framesF f2 lines := by
  intro f1
  induction f1 with
  | zero => intro lines f2 h1 _; exact absurd h1 (Nat.not_lt_zero _)
  | succ f ih =>
    intro lines f2 h1 h2
    cases f2 with
    | zero => exact absurd h2 (Nat.not_lt_zero _)
    | succ f2' =>
      unfold framesF
      cases hre : readEventL lines with
      | none => rfl
      | some p =>
        obtain ⟨ev, rest⟩ := p
        have hlt : rest.length < lines.length :=
          readEventLines_rest_lt lines _ _ _ _ _ ev rest hre
        exact congrArg (fun t => ev :: t) (ih rest f2' (by omega) (by omega))

/-- Unfolding the frame sequence by one successful ReadEvent call. -/
theorem framesL_cons {lines rest : List Bytes} {ev : SSEEvent}
    (h : readEventL lines = some (ev, rest)) :
    framesL lines = ev :: framesL rest := by
  have hlt : rest.length < lines.length :=
    readEventLines_rest_lt lines _ _ _ _ _ ev rest h
  unfold framesL
  simp only [framesF]
  rw [h]
  exact congrArg (fun t => ev :: t)
    (framesF_congr lines.length rest (rest.length + 1) (by omega) (by omega))

/-- The last character of a byte sequence, with a space as the value
for the empty sequence (used only to phrase trimming side conditions). -/
def lastCh : Bytes → Char
  | [] => ' '
  | [c] => c
  | _ :: c :: cs => lastCh (c :: cs)

theorem lastCh_cons_of_ne {x : Char} {xs : Bytes} (h : xs ≠ []) :
    lastCh (x :: xs) = lastCh xs := by
  cases xs with
  | nil => exact absurd rfl h
  | cons y ys => rfl

/-- Right trimming is the identity when the last character is not in
the cutset. -/
theorem trimRightIf_keep {p : Char → Bool} :
    ∀ l : Bytes, p (lastCh l) = false → trimRightIf p l = l := by
  intro l
  induction l with
  | nil => intro _; rfl
  | cons c cs ih =>
    intro h
    cases cs with
    | nil =>
      simp only [lastCh] at h
      simp [trimRightIf, h]
    | cons d ds =>
      rw [lastCh_cons_of_ne (by simp)] at h
      have hcs := ih h
      unfold trimRightIf
      rw [hcs]
      simp

theorem lastCh_append (u : Bytes) {v : Bytes} (hv : v ≠ []) :
    lastCh (u ++ v) = lastCh v := by
  induction u with
  | nil => rfl
  | cons a u' ih =>
    have hne : u' ++ v ≠ [] := by simp [List.append_eq_nil, hv]
    rw [List.cons_append, lastCh_cons_of_ne hne, ih]

/-- Lines ending in a character outside CR/LF are left unchanged by the
ReadEvent line trimming; the prefix may be anything. -/
theorem trimRightCRLF_keep_append (u : Bytes) (v : Bytes)
    (hu : isCRLFB (lastCh u) = false) (hv : isCRLFB (lastCh v) = false) :
    trimRightCRLF (u ++ v) = u ++ v := by
  cases hv0 : v with
  | nil =>
    subst hv0
    simpa using trimRightIf_keep u hu
  | cons c cs =>
    have : lastCh (u ++ v) = lastCh v := lastCh_append u (by simp [hv0])
    subst hv0
    exact trimRightIf_keep _ (by rw [this]; exact hv)

/-- completeLinesGo across one full line: the line is emitted (with the
pending accumulator) and scanning restarts after the LF. -/
theorem completeLinesGo_append :
    ∀ (l acc rest : Bytes), '\n' ∉ l →
      completeLinesGo acc (l ++ '\n' :: rest) = (acc ++ l) :: completeLinesGo [] rest := by
  intro l
  induction l with
  | nil => intro acc rest _; simp [completeLinesGo]
  | cons c l2 ih =>
    intro acc rest h
    have hc : ¬(c = '\n') := by
      intro e
      exact h (by simp [e])
    have h2 : '\n' ∉ l2 := by
      intro e
      exact h (by simp [e])
    simp only [List.cons_append, completeLinesGo, if_neg hc]
    have hrec := ih (acc ++ [c]) rest h2
    simp only [List.append_assoc, List.singleton_append] at hrec
    exact hrec

/-- Does the line sequence contain a blank line occurring after at
least one non-blank line (blankness judged after CR/LF trimming,
exactly as ReadEvent judges it)?  This is the spec-side notion of the
input containing at least one complete frame. -/
def hasBlankAfterContent (seen : Bool) : List Bytes → Bool
  | [] => false
  | raw :: rest =>
    if trimRightCRLF raw = [] then
      (if seen then true else hasBlankAfterContent seen rest)
    else hasBlankAfterContent true rest

/-- A byte stream contains a complete frame when, among its complete
lines, some blank line follows a non-blank line. -/
def hasCompleteFrame (s : Bytes) : Bool :=
  hasBlankAfterContent false (completeLines s)

/-- ReadEvent returns io.EOF, never a frame, whenever the input holds
no complete frame (no blank line after a content line). -/
theorem readEventLines_none_of_noBlank :
    ∀ (lines : List Bytes) (ev : SSEEvent) (buf : Bytes) (hd hf hl : Bool),
      hasBlankAfterContent hl lines = false →
      readEventLines lines ev buf hd hf hl = none := by
  intro lines
  induction lines with
  | nil => intro ev buf hd hf hl _; rfl
  | cons raw rest ih =>
    intro ev buf hd hf hl h
    unfold hasBlankAfterContent at h
    unfold readEventLines
    by_cases hb : trimRightCRLF raw = []
    · rw [if_pos hb] at h ⊢
      cases hl with
      | true => simp at h
      | false =>
        simp only [Bool.false_eq_true, if_false] at h ⊢
        exact ih _ _ _ _ _ h
    · rw [if_neg hb] at h ⊢
      split_ifs <;> exact ih _ _ _ _ _ h

/-- Line of the C2 frame family carrying one data value. -/
def mkDataLines : List Bytes → Bytes
  | [] => []
  | v :: vs => chars "data: " ++ v ++ '\n' :: mkDataLines vs

/-- The C2 frame family: an event line naming e, one data line per
value of vs, and a terminating blank line.  Every possible field value
v is representable, since the value of the line "data: " ++ v is
exactly v after the one-leading-space strip. -/
def mkEventFrame (e : Bytes) (vs : List Bytes) : Bytes :=
  chars "event: " ++ e ++ '\n' :: (mkDataLines vs ++ ['\n'])

/-- The data-buffer fold of ReadEvent (sse.go lines 143-150): append
each value, inserting an LF separator only when the buffer already has
content. -/
def dataFold (acc : Bytes) : List Bytes → Bytes
  | [] => acc
  | v :: vs =>
    dataFold (if acc.length > 0 then acc ++ '\n' :: v else acc ++ v) vs

/-- Helper for joinLF: LF before each further value. -/
def tailJoinLF : List Bytes → Bytes
  | [] => []
  | v :: vs => '\n' :: (v ++ tailJoinLF vs)

/-- Values joined by the byte LF, the join described by the spec. -/
def joinLF : List Bytes → Bytes
  | [] => []
  | v :: vs => v ++ tailJoinLF vs

theorem completeLines_mkDataLines :
    ∀ vs : List Bytes, (∀ v ∈ vs, '\n' ∉ v) →
      completeLinesGo [] (mkDataLines vs ++ ['\n'])
        = vs.map (fun v => chars "data: " ++ v) ++ [[]] := by
  intro vs
  induction vs with
  | nil => intro _; rfl
  | cons v vs ih =>
    intro h
    have hv : '\n' ∉ chars "data: " ++ v := by
      intro hm
      rcases List.mem_append.mp hm with h1 | h1
      · exact absurd h1 (by decide)
      · exact h v (by simp) h1
    have hsh : mkDataLines (v :: vs) ++ ['\n']
        = (chars "data: " ++ v) ++ '\n' :: (mkDataLines vs ++ ['\n']) := by
      simp [mkDataLines]
    rw [hsh, completeLinesGo_append (chars "data: " ++ v) [] (mkDataLines vs ++ ['\n']) hv,
      ih (fun w hw => h w (by simp [hw]))]
    simp

/-- A data field line advances the loop state exactly by the buffer
update of sse.go lines 143-150. -/
theorem readEventLines_data_step (v : Bytes) (rest : List Bytes) (ev : SSEEvent)
    (buf : Bytes) (hd hf hl : Bool) (hv : isCRLFB (lastCh v) = false) :
    readEventLines ((chars "data: " ++ v) :: rest) ev buf hd hf hl
      = readEventLines rest ev
          (if buf.length > 0 then buf ++ '\n' :: v else buf ++ v) true hf true := by
  have htrim : trimRightCRLF (chars "data: " ++ v) = chars "data: " ++ v :=
    trimRightCRLF_keep_append _ _ (by decide) hv
  have hne : ¬(chars "data: " ++ v = []) := by
    rw [show chars "data: " ++ v = 'd' :: (chars "ata: " ++ v) from rfl]
    exact List.cons_ne_nil _ _
  have hcol : ¬((chars "data: " ++ v).head? = some ':') := by
    rw [show (chars "data: " ++ v).head? = some 'd' from rfl]
    simp
  conv_lhs => unfold readEventLines
  rw [htrim,
    show (fieldValue (chars "data: " ++ v)).1 = chars "data" from rfl,
    show (fieldValue (chars "data: " ++ v)).2 = v from rfl,
    if_neg hne, if_neg hcol,
    if_neg (show ¬(chars "data" = chars "event") by decide),
    if_pos (show chars "data" = chars "data" from rfl)]

/-- An event field line advances the loop state exactly by sse.go
lines 140-142. -/
theorem readEventLines_event_step (e : Bytes) (rest : List Bytes) (ev : SSEEvent)
    (buf : Bytes) (hd hf hl : Bool) (he : isCRLFB (lastCh e) = false) :
    readEventLines ((chars "event: " ++ e) :: rest) ev buf hd hf hl
      = readEventLines rest { ev with Event := e } buf hd true true := by
  have htrim : trimRightCRLF (chars "event: " ++ e) = chars "event: " ++ e :=
    trimRightCRLF_keep_append _ _ (by decide) he
  have hne : ¬(chars "event: " ++ e = []) := by
    rw [show chars "event: " ++ e = 'e' :: (chars "vent: " ++ e) from rfl]
    exact List.cons_ne_nil _ _
  have hcol : ¬((chars "event: " ++ e).head? = some ':') := by
    rw [show (chars "event: " ++ e).head? = some 'e' from rfl]
    simp
  conv_lhs => unfold readEventLines
  rw [htrim,
    show (fieldValue (chars "event: " ++ e)).1 = chars "event" from rfl,
    show (fieldValue (chars "event: " ++ e)).2 = e from rfl,
    if_neg hne, if_neg hcol,
    if_pos (show chars "event" = chars "event" from rfl)]

/-- Running the loop over data lines followed by the terminating blank
line: the frame finishes with the folded buffer. -/
theorem readEventLines_data_lines :
    ∀ (vs : List Bytes) (ev : SSEEvent) (buf : Bytes) (hd hf : Bool),
      (∀ v ∈ vs, isCRLFB (lastCh v) = false) →
      readEventLines (vs.map (fun v => chars "data: " ++ v) ++ [[]]) ev buf hd hf true
        = some (finishEvent ev (dataFold buf vs) (hd || !vs.isEmpty), []) := by
  intro vs
  induction vs with
  | nil =>
    intro ev buf hd hf _
    simp only [List.map_nil, List.nil_append, List.isEmpty_nil, Bool.not_true,
      Bool.or_false, dataFold]
    rfl
  | cons v vs ih =>
    intro ev buf hd hf h
    have h1 := h v (by simp)
    rw [show (v :: vs).map (fun v => chars "data: " ++ v) ++ [[]]
        = (chars "data: " ++ v) :: (vs.map (fun v => chars "data: " ++ v) ++ [[]]) from by
        simp]
    rw [readEventLines_data_step v _ ev buf hd hf true h1]
    rw [ih ev _ true hf (fun w hw => h w (by simp [hw]))]
    simp [dataFold]

theorem dataFold_of_ne_nil :
    ∀ (vs : List Bytes) (acc : Bytes), acc ≠ [] → dataFold acc vs = acc ++ tailJoinLF vs := by
  intro vs
  induction vs with
  | nil => intro acc _; simp [dataFold, tailJoinLF]
  | cons v vs ih =>
    intro acc ha
    have hlen : acc.length > 0 := List.length_pos.mpr ha
    simp only [dataFold]
    rw [if_pos hlen, ih (acc ++ '\n' :: v) (by simp)]
    simp [tailJoinLF]

/-- When the first value is non-empty, the ReadEvent buffer fold is the
plain LF join. -/
theorem dataFold_joinLF {v : Bytes} (vs : List Bytes) (hv : v ≠ []) :
    dataFold [] (v :: vs) = joinLF (v :: vs) := by
  simp only [dataFold]
  rw [if_neg (by simp)]
  simp only [List.nil_append]
  rw [dataFold_of_ne_nil vs v hv]
  rfl

/-- A frame with a non-empty, non-matching event name makes the
dispatch loop skip to the remaining outcomes. -/
theorem dispatchLoop_skip {α : Type} (expected : Bytes) (decode : Bytes → Option α)
    (handler : α → Option Bytes) (ev : SSEEvent) (outs : List ReadOutcome)
    (h1 : ev.Event ≠ []) (h2 : ev.Event ≠ expected) :
    dispatchLoop expected decode handler (ReadOutcome.frame ev :: outs)
      = dispatchLoop expected decode handler outs := by
  conv_lhs => unfold dispatchLoop
  rw [if_neg (show ¬(ev.Comment ≠ [] ∧ ev.Event = [] ∧ ev.Data = []) from
        fun hc => h1 hc.2.1),
    if_pos ⟨h1, h2⟩]

/-- A frame that is neither comment-only nor filtered by the event
name reaches the payload stage. -/
theorem dispatchLoop_default {α : Type} (expected : Bytes) (decode : Bytes → Option α)
    (handler : α → Option Bytes) (ev : SSEEvent) (outs : List ReadOutcome)
    (h1 : ¬(ev.Comment ≠ [] ∧ ev.Event = [] ∧ ev.Data = []))
    (h2 : ev.Event = [] ∨ ev.Event = expected) :
    dispatchLoop expected decode handler (ReadOutcome.frame ev :: outs)
      = processPayload decode handler ev.Data (dispatchLoop expected decode handler outs) := by
  conv_lhs => unfold dispatchLoop
  rw [if_neg h1, if_neg (show ¬(ev.Event ≠ [] ∧ ev.Event ≠ expected) from by
        rcases h2 with h | h
        · exact fun hc => hc.1 h
        · exact fun hc => hc.2 h)]

/-- A frame the dispatch loop skips without reaching the payload stage:
comment-only, or named with a non-matching name. -/
def isSkippedFrame (expected : Bytes) (ev : SSEEvent) : Prop :=
  (ev.Comment ≠ [] ∧ ev.Event = [] ∧ ev.Data = [])
  ∨ (ev.Event ≠ [] ∧ ev.Event ≠ expected)

instance (expected : Bytes) (ev : SSEEvent) : Decidable (isSkippedFrame expected ev) := by
  unfold isSkippedFrame
  infer_instance

/-- Skipped frames leave the dispatch loop result unchanged. -/
theorem dispatchLoop_skips {α : Type} (expected : Bytes) (decode : Bytes → Option α)
    (handler : α → Option Bytes) :
    ∀ (pre : List SSEEvent) (outs : List ReadOutcome),
      (∀ ev ∈ pre, isSkippedFrame expected ev) →
      dispatchLoop expected decode handler (pre.map ReadOutcome.frame ++ outs)
        = dispatchLoop expected decode handler outs := by
  intro pre
  induction pre with
  | nil => intro outs _; rfl
  | cons ev pre ih =>
    intro outs h
    have hev := h ev (by simp)
    simp only [List.map_cons, List.cons_append]
    rcases hev with hc | hn
    · conv_lhs => unfold dispatchLoop
      rw [if_pos hc]
      exact ih outs (fun w hw => h w (by simp [hw]))
    · rw [dispatchLoop_skip expected decode handler ev _ hn.1 hn.2]
      exact ih outs (fun w hw => h w (by simp [hw]))

/-!
Claims.
-/

/-- Claim C1.  The claim states that a frame returned by ReadEvent
never has a non-empty Comment together with a non-empty Event or Data,
and in particular that a frame whose first line is a comment line
followed by event and data field lines must not carry both.  The code
violates this: the comment guard (sse.go lines 116-124) tests the
hasFields and hasData flags only at the moment the comment line is
read, so a comment arriving before the fields is kept alongside them.
This contradicts the declared behaviour of the code itself - the
SSEEvent.Comment field is documented as non-empty only for
comment-only messages, and the guard's own comment says other frames
ignore inline comments - so the claim is recorded as a code bug.  This
theorem evaluates the reader at the failing input. -/
theorem c1_comment_retained_with_fields :
    ReadEvent (chars ": c\nevent: facts\ndata: x\n\n")
      = some ({ Event := chars "facts", Data := chars "x", ID := [], Retry := [],
                Comment := chars "c" }, [])
    ∧ ((chars "c" : Bytes) ≠ [] ∧ (chars "facts" : Bytes) ≠ [] ∧ (chars "x" : Bytes) ≠ []) :=
  ⟨by decide, by decide⟩

/-- Claim C2, counterexample.  The claim says the returned Data always
equals the data-line values joined by LF.  For the frame with values
"" and "x" (input "event: e\ndata: \ndata: x\n\n") the reader returns
Data "x", while the LF join of the values is "\nx": the separator is
inserted only when the buffer already has content (sse.go lines
143-150), so an empty first value produces no separator. -/
theorem c2_counterexample :
    (ReadEvent (mkEventFrame (chars "e") [[], chars "x"])).map (fun p => p.1.Data)
      = some (chars "x")
    ∧ joinLF [[], chars "x"] ≠ chars "x" :=
  ⟨by decide, by decide⟩

/-- Claim C2 (amended): for every input consisting of an event line,
one or more data lines, and a terminating blank line, ReadEvent
returns a frame whose Data is the fold that appends each data value to
the buffer and inserts the LF separator only when the buffer is
already non-empty (leading empty values are absorbed); whenever the
first data value is non-empty this coincides with the LF join of the
values, in order.  The side conditions say only that each value and
the event name fit on one line (no LF, no trailing CR). -/
theorem c2_data_join (e : Bytes) (vs : List Bytes)
    (hvs : vs ≠ [])
    (he : '\n' ∉ e ∧ isCRLFB (lastCh e) = false)
    (hv : ∀ v ∈ vs, '\n' ∉ v ∧ isCRLFB (lastCh v) = false) :
    ReadEvent (mkEventFrame e vs)
      = some ({ Event := e, Data := dataFold [] vs, ID := [], Retry := [],
                Comment := [] }, [])
    ∧ (∀ v0 vs0, vs = v0 :: vs0 → v0 ≠ [] → dataFold [] vs = joinLF vs) := by
  constructor
  · have hel : '\n' ∉ chars "event: " ++ e := by
      intro hm
      rcases List.mem_append.mp hm with h1 | h1
      · exact absurd h1 (by decide)
      · exact he.1 h1
    have hframe : mkEventFrame e vs
        = (chars "event: " ++ e) ++ '\n' :: (mkDataLines vs ++ ['\n']) := by
      simp [mkEventFrame]
    have hlines : completeLines (mkEventFrame e vs)
        = (chars "event: " ++ e) :: (vs.map (fun v => chars "data: " ++ v) ++ [[]]) := by
      unfold completeLines
      rw [hframe, completeLinesGo_append _ _ _ hel,
        completeLines_mkDataLines vs (fun v hw => (hv v hw).1)]
      simp
    unfold ReadEvent readEventL
    rw [hlines, readEventLines_event_step e _ _ _ _ _ _ he.2,
      readEventLines_data_lines vs _ [] false true (fun v hw => (hv v hw).2)]
    have hne : vs.isEmpty = false := by
      cases vs with
      | nil => exact absurd rfl hvs
      | cons a l => rfl
    simp [finishEvent, hne, SSEEvent.zero]
  · intro v0 vs0 hv0 hne
    subst hv0
    exact dataFold_joinLF vs0 hne

/-- Witness for c2_data_join at the frame
"event: facts\ndata: a\ndata: b\n\n". -/
theorem c2_data_join_witness :
    ReadEvent (mkEventFrame (chars "facts") [chars "a", chars "b"])
      = some ({ Event := chars "facts", Data := chars "a\nb", ID := [], Retry := [],
                Comment := [] }, [])
    ∧ dataFold [] [chars "a", chars "b"] = joinLF [chars "a", chars "b"] := by
  have h := c2_data_join (chars "facts") [chars "a", chars "b"] (by decide) (by decide)
    (by decide)
  exact ⟨h.1.trans (by decide), h.2 (chars "a") [chars "b"] rfl (by decide)⟩

/-- Claim C3: in both stream drivers every frame carrying a non-empty
event name different from the feed's expected name ("facts" and
"matches" respectively) is skipped - the handler is not invoked for it
and the loop continues with the frames after it - while a frame with
the empty (default) event name that is not comment-only is not skipped
by this rule and proceeds to the payload stage (empty-data check,
decoding, handler). -/
theorem c3_event_name_filter
    (hF : FactsStreamChunk → Option Bytes) (hM : MatchesStreamChunk → Option Bytes)
    (lines rest : List Bytes) (ev : SSEEvent)
    (h : readEventL lines = some (ev, rest)) :
    (ev.Event ≠ [] → ev.Event ≠ chars "facts" →
      StreamFactsDispatch hF lines = StreamFactsDispatch hF rest)
    ∧ (ev.Event ≠ [] → ev.Event ≠ chars "matches" →
      StreamMatchesDispatch hM lines = StreamMatchesDispatch hM rest)
    ∧ (¬(ev.Comment ≠ [] ∧ ev.Event = [] ∧ ev.Data = []) → ev.Event = [] →
      StreamFactsDispatch hF lines
        = processPayload decodeFactsChunk hF ev.Data (StreamFactsDispatch hF rest)
      ∧ StreamMatchesDispatch hM lines
        = processPayload decodeMatchesChunk hM ev.Data (StreamMatchesDispatch hM rest)) := by
  have hfr := framesL_cons h
  refine ⟨?_, ?_, ?_⟩
  · intro h1 h2
    unfold StreamFactsDispatch
    rw [hfr, List.map_cons]
    exact dispatchLoop_skip _ _ _ _ _ h1 h2
  · intro h1 h2
    unfold StreamMatchesDispatch
    rw [hfr, List.map_cons]
    exact dispatchLoop_skip _ _ _ _ _ h1 h2
  · intro hc h0
    constructor
    · unfold StreamFactsDispatch
      rw [hfr, List.map_cons]
      exact dispatchLoop_default _ _ _ _ _ hc (Or.inl h0)
    · unfold StreamMatchesDispatch
      rw [hfr, List.map_cons]
      exact dispatchLoop_default _ _ _ _ _ hc (Or.inl h0)

/-- Witness for c3_event_name_filter: the frame named "other" is
skipped by both drivers. -/
theorem c3_event_name_filter_witness :
    StreamFactsDispatch (fun _ => none) (completeLines (chars "event: other\ndata: x\n\n"))
      = StreamFactsDispatch (fun _ => none) []
    ∧ StreamMatchesDispatch (fun _ => none)
        (completeLines (chars "event: other\ndata: x\n\n"))
      = StreamMatchesDispatch (fun _ => none) [] := by
  have h := c3_event_name_filter (fun _ => none) (fun _ => none)
    (completeLines (chars "event: other\ndata: x\n\n")) []
    ⟨chars "other", chars "x", [], [], []⟩ (by decide)
  exact ⟨h.1 (by decide) (by decide), h.2.1 (by decide) (by decide)⟩

/-- Claim C4: in both drivers, a frame that passes the comment-only
and event-name filters but has empty Data terminates the loop at once
with the empty-payload protocol error; the handler is not invoked for
it (the chunk trace is empty) and no later frame influences the
result (the conclusion does not depend on the lines after the
frame). -/
theorem c4_empty_payload_fatal
    (hF : FactsStreamChunk → Option Bytes) (hM : MatchesStreamChunk → Option Bytes)
    (lines rest : List Bytes) (ev : SSEEvent)
    (h : readEventL lines = some (ev, rest))
    (hc : ¬(ev.Comment ≠ [] ∧ ev.Event = [] ∧ ev.Data = []))
    (hd : ev.Data = []) :
    ((ev.Event = [] ∨ ev.Event = chars "facts") →
      StreamFactsDispatch hF lines = ([], SessionExit.emptyPayload))
    ∧ ((ev.Event = [] ∨ ev.Event = chars "matches") →
      StreamMatchesDispatch hM lines = ([], SessionExit.emptyPayload)) := by
  have hfr := framesL_cons h
  constructor
  · intro hok
    unfold StreamFactsDispatch
    rw [hfr, List.map_cons, dispatchLoop_default _ _ _ _ _ hc hok]
    simp [processPayload, hd]
  · intro hok
    unfold StreamMatchesDispatch
    rw [hfr, List.map_cons, dispatchLoop_default _ _ _ _ _ hc hok]
    simp [processPayload, hd]

/-- Witness for c4_empty_payload_fatal: a frame consisting of the
unknown field line "x" alone has default event name and empty data and
kills both sessions. -/
theorem c4_empty_payload_fatal_witness :
    StreamFactsDispatch (fun _ => none) (completeLines (chars "x\n\n"))
      = ([], SessionExit.emptyPayload)
    ∧ StreamMatchesDispatch (fun _ => none) (completeLines (chars "x\n\n"))
      = ([], SessionExit.emptyPayload) := by
  have h := c4_empty_payload_fatal (fun _ => none) (fun _ => none)
    (completeLines (chars "x\n\n")) [] SSEEvent.zero (by decide) (by decide) (by decide)
  exact ⟨h.1 (Or.inl rfl), h.2 (Or.inl rfl)⟩

/-- Claim C5: in the dispatch loop of either driver, a non-EOF read
error - observed after any number of skipped frames - makes the driver
return the cancellation error when the cancellation signal is active
at that point, and the read error (wrapped) otherwise.  The loops are
dispatchLoop at the parameters of StreamFacts and of StreamMatches;
the ctx.Err() value at the failure point travels with the
ReadOutcome.readFailure outcome. -/
theorem c5_cancellation_preference
    (hF : FactsStreamChunk → Option Bytes) (hM : MatchesStreamChunk → Option Bytes)
    (pre : List SSEEvent) (m : Bytes) (ctxv : Option Bytes) (rest : List ReadOutcome) :
    ((∀ ev ∈ pre, isSkippedFrame (chars "facts") ev) →
      dispatchLoop (chars "facts") decodeFactsChunk hF
          (pre.map ReadOutcome.frame ++ ReadOutcome.readFailure m ctxv :: rest)
        = ([], match ctxv with
               | some c => SessionExit.ctxCanceled c
               | none => SessionExit.readError m))
    ∧ ((∀ ev ∈ pre, isSkippedFrame (chars "matches") ev) →
      dispatchLoop (chars "matches") decodeMatchesChunk hM
          (pre.map ReadOutcome.frame ++ ReadOutcome.readFailure m ctxv :: rest)
        = ([], match ctxv with
               | some c => SessionExit.ctxCanceled c
               | none => SessionExit.readError m)) := by
  constructor
  · intro hp
    rw [dispatchLoop_skips _ _ _ pre _ hp]
    rfl
  · intro hp
    rw [dispatchLoop_skips _ _ _ pre _ hp]
    rfl

/-- Witness for c5_cancellation_preference: after a skipped keepalive
frame, an active cancellation yields the context error in the facts
loop and an inactive one yields the wrapped read error in the matches
loop. -/
theorem c5_cancellation_preference_witness :
    dispatchLoop (chars "facts") decodeFactsChunk (fun _ => none)
        ([(⟨[], [], [], [], chars "ping"⟩ : SSEEvent)].map ReadOutcome.frame
          ++ ReadOutcome.readFailure (chars "boom") (some (chars "context canceled")) :: [])
      = ([], SessionExit.ctxCanceled (chars "context canceled"))
    ∧ dispatchLoop (chars "matches") decodeMatchesChunk (fun _ => none)
        ([(⟨[], [], [], [], chars "ping"⟩ : SSEEvent)].map ReadOutcome.frame
          ++ ReadOutcome.readFailure (chars "boom") none :: [])
      = ([], SessionExit.readError (chars "boom")) := by
  have h1 := (c5_cancellation_preference (fun _ => none) (fun _ => none)
    [⟨[], [], [], [], chars "ping"⟩] (chars "boom") (some (chars "context canceled")) []).1
  have h2 := (c5_cancellation_preference (fun _ => none) (fun _ => none)
    [⟨[], [], [], [], chars "ping"⟩] (chars "boom") none []).2
  exact ⟨h1 (by decide), h2 (by decide)⟩

/-- Claim C6: on the stream ": ping\n\n" then
"event: facts\ndata: \x7b\"id\":1,\"items\":[]\x7d\n\n" then
end-of-stream, StreamFacts invokes the handler exactly once, with the
decoded chunk whose Items list is empty (the unknown "id" key is
ignored by decoding), and then returns success: the comment frame is
skipped and EOF is normal termination. -/
theorem c6_concrete_facts_session
    (h : FactsStreamChunk → Option Bytes)
    (hc : h ⟨[], [], 0, []⟩ = none) :
    StreamFactsSession h
        (chars ": ping\n\nevent: facts\ndata: \x7b\"id\":1,\"items\":[]\x7d\n\n")
      = ([⟨[], [], 0, []⟩], SessionExit.ok)
    ∧ (⟨[], [], 0, []⟩ : FactsStreamChunk).Items = [] := by
  constructor
  · have step :
        StreamFactsSession h
            (chars ": ping\n\nevent: facts\ndata: \x7b\"id\":1,\"items\":[]\x7d\n\n")
          = (match h ⟨[], [], 0, []⟩ with
             | some e => ([⟨[], [], 0, []⟩], SessionExit.handlerError e)
             | none => ((⟨[], [], 0, []⟩ : FactsStreamChunk) :: [], SessionExit.ok)) := rfl
    rw [step, hc]
  · rfl

/-- Witness for c6_concrete_facts_session with the handler that always
succeeds. -/
theorem c6_concrete_facts_session_witness :
    StreamFactsSession (fun _ => none)
        (chars ": ping\n\nevent: facts\ndata: \x7b\"id\":1,\"items\":[]\x7d\n\n")
      = ([⟨[], [], 0, []⟩], SessionExit.ok) :=
  (c6_concrete_facts_session (fun _ => none) rfl).1

/-- Claim C7: whenever the input byte stream contains no complete
frame - no blank line after a content line among its complete lines,
which covers the empty stream, blank-only streams, and every truncated
stream whose trailing frame lacks its terminating blank line -
ReadEvent signals io.EOF and never returns a (partial) frame. -/
theorem c7_truncated_stream_eof (s : Bytes) (h : hasCompleteFrame s = false) :
    ReadEvent s = none :=
  readEventLines_none_of_noBlank (completeLines s) SSEEvent.zero [] false false false h

/-- Witness for c7_truncated_stream_eof: a truncated stream with
content lines but no terminating blank line yields io.EOF. -/
theorem c7_truncated_stream_eof_witness :
    hasCompleteFrame (chars "event: facts\ndata: x\n") = false
    ∧ ReadEvent (chars "event: facts\ndata: x\n") = none :=
  ⟨by decide, c7_truncated_stream_eof _ (by decide)⟩

/-- Claim C8, counterexample.  The claim's message rule says: the JSON
"error" field if present and non-empty after trimming, otherwise the
trimmed body text if the body is non-empty, otherwise the status
phrase.  A body of one space is non-empty and has no JSON error field,
so the rule picks its trimmed text, which is empty - but the code
(doJSON lines 225-231 and both drivers) falls through to the status
text whenever the message is still empty after trimming.  The
streaming loop is still never entered. -/
theorem c8_counterexample :
    StreamFactsResponse (fun _ => none) 400 (chars "400 Bad Request") (chars " ")
      = ResponseOutcome.apiErr ⟨400, chars "400 Bad Request", chars " "⟩
    ∧ (chars " " : Bytes) ≠ []
    ∧ (⟨400, chars "400 Bad Request", chars " "⟩ : APIError).Message
        ≠ goTrimSpace (chars " ") :=
  ⟨rfl, by decide, by decide⟩

/-- Claim C8 (amended): every response with status outside [200,299]
makes the client return a typed APIError carrying the status code and
the body bytes read, without entering the dispatch loop, with Message
chosen by: the trimmed JSON "error" field when non-empty; otherwise
the trimmed body text when THAT TRIMMED TEXT is non-empty; otherwise
the HTTP status text.  (The one amendment: an all-whitespace non-empty
body falls through to the status text, since the code re-checks
emptiness after trimming.)  The length bound keeps the body within the
64 KiB read limit so the attached bytes are the raw body. -/
theorem c8_api_error_classifier
    (hF : FactsStreamChunk → Option Bytes) (hM : MatchesStreamChunk → Option Bytes)
    (code : Nat) (status body : Bytes)
    (hcode : code < 200 ∨ 300 ≤ code) (hlen : body.length ≤ 65536) :
    StreamFactsResponse hF code status body
      = ResponseOutcome.apiErr (classifyError code status body)
    ∧ StreamMatchesResponse hM code status body
      = ResponseOutcome.apiErr (classifyError code status body)
    ∧ (classifyError code status body).StatusCode = code
    ∧ (classifyError code status body).Body = body
    ∧ (goTrimSpace (extractErrorField body) ≠ [] →
        (classifyError code status body).Message = goTrimSpace (extractErrorField body))
    ∧ (goTrimSpace (extractErrorField body) = [] → goTrimSpace body ≠ [] →
        (classifyError code status body).Message = goTrimSpace body)
    ∧ (goTrimSpace (extractErrorField body) = [] → goTrimSpace body = [] →
        (classifyError code status body).Message = status) := by
  have htake : body.take 65536 = body := List.take_of_length_le hlen
  refine ⟨?_, ?_, rfl, rfl, ?_, ?_, ?_⟩
  · unfold StreamFactsResponse
    rw [if_pos hcode, htake]
  · unfold StreamMatchesResponse
    rw [if_pos hcode, htake]
  · intro h5
    simp [classifyError, h5]
  · intro h5 h6
    have hb : body.length > 0 := by
      cases body with
      | nil => exact absurd rfl h6
      | cons a l => simp
    simp [classifyError, h5, hb, h6]
  · intro h5 h6
    by_cases hb : body.length > 0
    · simp [classifyError, h5, h6, hb]
    · simp [classifyError, h5, h6, hb]

/-- Witness for c8_api_error_classifier at the spec's concrete
example: status 400 with body containing a JSON error field. -/
theorem c8_api_error_classifier_witness :
    StreamFactsResponse (fun _ => none) 400 (chars "400 Bad Request")
        (chars "\x7b\"error\":\"bad request\"\x7d")
      = ResponseOutcome.apiErr
          ⟨400, chars "bad request", chars "\x7b\"error\":\"bad request\"\x7d"⟩ := by
  have h := c8_api_error_classifier (fun _ => none) (fun _ => none) 400
    (chars "400 Bad Request") (chars "\x7b\"error\":\"bad request\"\x7d")
    (Or.inr (by omega)) (by decide)
  rw [h.1]
  exact congrArg ResponseOutcome.apiErr (by decide)

/-- Claim C9: both drivers validate their arguments before any network
call and fail at once when a precondition is violated: in both, a
proID that trims to empty or a nil handler; in StreamMatches
additionally an empty direction or a zero cursor watermark (both of
its components zero - the code already rejects any zero
UpdatedUTC). -/
theorem c9_stream_preconditions (p : Bytes) (hNil : Bool) (d : Bytes)
    (uz : Bool) (cid : Int) :
    ((goTrimSpace p = [] ∨ hNil = true) →
      ∃ msg, StreamFactsStart p hNil = StartResult.precondErr msg)
    ∧ ((goTrimSpace p = [] ∨ hNil = true ∨ d = [] ∨ (uz = true ∧ cid = 0)) →
      ∃ msg, StreamMatchesStart p hNil d uz cid = StartResult.precondErr msg) := by
  constructor
  · intro h
    simp only [StreamFactsStart]
    by_cases hp : goTrimSpace p = []
    · rw [if_pos hp]; exact ⟨_, rfl⟩
    · rcases h with h | h
      · exact absurd h hp
      · rw [if_neg hp, if_pos h]; exact ⟨_, rfl⟩
  · intro h
    simp only [StreamMatchesStart]
    by_cases hp : goTrimSpace p = []
    · rw [if_pos hp]; exact ⟨_, rfl⟩
    · rw [if_neg hp]
      by_cases hh : hNil = true
      · rw [if_pos hh]; exact ⟨_, rfl⟩
      · rw [if_neg hh]
        by_cases hd : d = []
        · rw [if_pos hd]; exact ⟨_, rfl⟩
        · rw [if_neg hd]
          rcases h with h | h | h | h
          · exact absurd h hp
          · exact absurd h hh
          · exact absurd h hd
          · obtain ⟨huz, hcid⟩ := h
            by_cases hlt : cid < 0
            · rw [if_pos hlt]; exact ⟨_, rfl⟩
            · rw [if_neg hlt, if_pos huz]; exact ⟨_, rfl⟩

/-- Witness for c9_stream_preconditions: a whitespace proID fails
StreamFacts; a zero cursor watermark fails StreamMatches. -/
theorem c9_stream_preconditions_witness :
    (∃ msg, StreamFactsStart (chars "  ") false = StartResult.precondErr msg)
    ∧ (∃ msg, StreamMatchesStart (chars "p_1") false (chars "Offer") true 0
        = StartResult.precondErr msg) :=
  ⟨(c9_stream_preconditions (chars "  ") false (chars "Offer") true 0).1
      (Or.inl (by decide)),
   (c9_stream_preconditions (chars "p_1") false (chars "Offer") true 0).2
      (Or.inr (Or.inr (Or.inr ⟨rfl, rfl⟩)))⟩

/-- Claim C10: the keepalive frame ":" followed by a blank line parses
to a frame with empty Comment (the comment text trims to empty),
empty Event and empty Data; the drivers' comment-only skip demands a
non-empty Comment, so the frame falls through the filters to the
empty-data check and both sessions terminate with the empty-payload
protocol error instead of skipping it. -/
theorem c10_empty_comment_keepalive
    (hF : FactsStreamChunk → Option Bytes) (hM : MatchesStreamChunk → Option Bytes) :
    ReadEvent (chars ":\n\n") = some (⟨[], [], [], [], []⟩, [])
    ∧ StreamFactsSession hF (chars ":\n\n") = ([], SessionExit.emptyPayload)
    ∧ StreamMatchesSession hM (chars ":\n\n") = ([], SessionExit.emptyPayload) :=
  ⟨by decide, rfl, rfl⟩

/-- Witness for c10_empty_comment_keepalive with concrete handlers. -/
theorem c10_empty_comment_keepalive_witness :
    StreamFactsSession (fun _ => none) (chars ":\n\n") = ([], SessionExit.emptyPayload)
    ∧ StreamMatchesSession (fun _ => none) (chars ":\n\n")
      = ([], SessionExit.emptyPayload) :=
  ⟨(c10_empty_comment_keepalive (fun _ => none) (fun _ => none)).2.1,
   (c10_empty_comment_keepalive (fun _ => none) (fun _ => none)).2.2⟩
